import Mathlib

/-!
Shallow embedding of the Hibridus install orchestrator (src/install.py).

The program discovers module build scripts, runs each as a child process,
parses its standard output as a JSON manifest, checks the manifest's shape
against a closed category set, and copies the declared source files from the
step's working directory into a categorized staging tree; after all steps it
invokes the external image-creation and bootloader tools.

Filesystem paths are modelled as lists of segments (as pathlib keeps them:
joining a string splits on "/", drops empty and "." segments, and keeps
".." segments unresolved).  The filesystem is an association list from
OS-resolved (".."-normalized) paths to entries; a regular file carries its
byte content, permission bits and modification time.  Child processes,
JSON parsing and the two external tools are modelled by the observable
outcome the Python code branches on, and every unhandled Python exception
is a distinct terminal outcome (the interpreter exits nonzero without the
script's own diagnostic).
-/

namespace Install

/-- A filesystem path as a list of segments (relative to the orchestrator's
initial working directory). -/
abbrev FsPath := List String

/-- Split a list of characters at every slash. -/
def splitOnSlash : List Char → List (List Char)
  | [] => [[]]
  | c :: rest =>
    match splitOnSlash rest with
    | [] => [[]]
    | seg :: segs => if c = '/' then [] :: seg :: segs else (c :: seg) :: segs

/-- Splitting a string path component the way pathlib does when joining:
split on "/", drop empty segments and "." segments, keep "..". -/
def splitSegs (s : String) : List String :=
  ((splitOnSlash s.toList).map (fun cs => String.mk cs)).filter
    (fun seg => seg ≠ "" && seg ≠ ".")

/-- `p / s` for a pathlib Path `p` and string `s`. -/
def joinPath (p : FsPath) (s : String) : FsPath := p ++ splitSegs s

/-- The final component of a path (pathlib's `.name`, "" for the empty path). -/
def lastSegment (p : FsPath) : String := p.getLastD ""

/-- OS-level resolution of ".." segments, as the kernel does when a path is
actually opened: ".." removes the preceding segment (at the root it is a
no-op for this relative model). -/
def normalize (p : FsPath) : FsPath :=
  p.foldl (fun acc seg => if seg = ".." then acc.dropLast else acc ++ [seg]) []

/-- Metadata and content of a regular file. -/
structure FileData where
  content : List Nat
  mode : Nat
  mtime : Nat
deriving Repr, DecidableEq

/-- A filesystem entry: a regular file or a directory. -/
inductive Entry
  | file (d : FileData)
  | dir
deriving Repr, DecidableEq

/-- The filesystem: an association list keyed by normalized paths; the most
recently inserted binding for a path shadows older ones. -/
abbrev FS := List (FsPath × Entry)

/-- Look up the entry at a path, resolving ".." the way the OS does. -/
def FS.lookup (fs : FS) (p : FsPath) : Option Entry :=
  (fs.find? (fun e => e.1 = normalize p)).map Prod.snd

/-- Write an entry at a path (overwriting any previous entry there). -/
def FS.insert (fs : FS) (p : FsPath) (e : Entry) : FS :=
  (normalize p, e) :: fs

/-- A parsed JSON document, as json.loads produces it. -/
inductive JSON
  | str (s : String)
  | num (n : Int)
  | bool (b : Bool)
  | null
  | arr (elems : List JSON)
  | obj (fields : List (String × JSON))
deriving Repr

/-- Whether a JSON value is an object (isinstance(x, dict)). -/
def JSON.isObj : JSON → Bool
  | .obj _ => true
  | _ => false

/-- Paths of the staging tree, from the constants at the top of install.py
(Path.cwd() is the empty path in this model). -/
def ROOT : FsPath := ["cache", "iso_root"]

def BOOT : FsPath := ROOT ++ ["boot"]

def KERNEL : FsPath := ROOT ++ ["MASTER"]

def ADDONS : FsPath := KERNEL ++ ["addons"]

/-- The closed category set: BASES in install.py. -/
def BASES : List (String × FsPath) :=
  [("generic", ROOT), ("boot", BOOT), ("master", KERNEL), ("addon", ADDONS)]

/-- Whether a category name is in the closed set (`kind in BASES`). -/
def categoryKnown (kind : String) : Bool :=
  BASES.any (fun b => b.1 = kind)

/-- The ways the run of one build script can end, abstracting the child
process and json.loads by the outcome the Python code branches on:
the launch itself fails (OSError, e.g. missing interpreter — not caught by
install.py), the child exits nonzero (CalledProcessError), the child exits
zero but its output is not JSON (JSONDecodeError), or it exits zero with a
parsed JSON document. -/
inductive StepBehavior
  | launchFailure
  | nonzeroExit
  | invalidOutput
  | emits (v : JSON)

/-- A discovered build script: its parent directory (the step's working
directory) and the outcome of running it. -/
structure Step where
  dir : FsPath
  behavior : StepBehavior

/-- How a pipeline run ends early.  The first five correspond to the abort()
diagnostics of install.py (spec taxonomy: ExecutionError, ParseError,
SchemaError, PlacementError); uncaughtException is a Python exception no
handler catches, which also terminates the process with a nonzero status
but without the script's own diagnostic. -/
inductive PipelineError
  | discoveryError
  | executionError (step : FsPath)
  | parseError (step : FsPath)
  | schemaErrorNotObject (step : FsPath)
  | schemaErrorUnknownCategory (kind : String)
  | schemaErrorInvalidFileMap (step : FsPath)
  | placementError (src : FsPath)
  | uncaughtException (exc : String)
deriving Repr, DecidableEq

/-- Whether an error is one of the schema-validation aborts of main()
(spec taxonomy: SchemaError). -/
def PipelineError.isSchemaError : PipelineError → Bool
  | .schemaErrorNotObject _ => true
  | .schemaErrorUnknownCategory _ => true
  | .schemaErrorInvalidFileMap _ => true
  | _ => false

/-- Observable events of a run, for ordering claims: a step was launched, a
file was copied into the staging tree, the image tool ran, the bootloader
tool ran. -/
inductive Event
  | ranStep (step : FsPath)
  | placedFile (src dst : FsPath)
  | assembledImage
  | installedBootloader
deriving Repr, DecidableEq

/-- Mutable state threaded through the run: the filesystem, the event trace,
and the current clock (used as the mtime of files written now). -/
structure St where
  fs : FS
  events : List Event
  now : Nat
deriving Repr, DecidableEq

/-- run_build (install.py lines 54-71): launch the script with cwd its
parent; CalledProcessError is caught and aborts (ExecutionError),
JSONDecodeError is caught and aborts (ParseError); an OSError from the
launch itself is caught by nothing. -/
def run_build (s : Step) : Except PipelineError JSON :=
  match s.behavior with
  | .launchFailure => .error (.uncaughtException "FileNotFoundError")
  | .nonzeroExit => .error (.executionError s.dir)
  | .invalidOutput => .error (.parseError s.dir)
  | .emits v => .ok v

/-- place_file (install.py lines 73-84): src = build_dir / file; abort with
the file-not-found diagnostic if src does not exist; dst = target_base /
subpath / src.name (raising TypeError if the manifest value is not a
string); mkdir -p dst.parent; shutil.copy(src, dst).  shutil.copy raises
IsADirectoryError on a directory source and SameFileError when src and dst
resolve to the same file, and otherwise writes dst with the source's
content, copies the permission bits, and stamps dst with the current time
(shutil.copy copies data and mode only, not the timestamp). -/
def place_file (st : St) (build_dir : FsPath) (file : String) (target_base : FsPath)
    (subpath : JSON) : St × Option PipelineError :=
  let src := joinPath build_dir file
  match st.fs.lookup src with
  | none => (st, some (.placementError src))
  | some entry =>
    match subpath with
    | .str sub =>
      match entry with
      | .dir => (st, some (.uncaughtException "IsADirectoryError"))
      | .file d =>
        let dst := target_base ++ splitSegs sub ++ [lastSegment src]
        if normalize dst = normalize src then
          (st, some (.uncaughtException "SameFileError"))
        else
          ({ fs := st.fs.insert dst (.file ⟨d.content, d.mode, st.now⟩),
             events := st.events ++ [.placedFile src dst],
             now := st.now }, none)
    | _ => (st, some (.uncaughtException "TypeError"))

/-- The inner loop of main (install.py lines 114-115): place every
(file, subpath) item of one category's file map, stopping at the first
abort. -/
def placeFiles (build_dir target_base : FsPath) :
    St → List (String × JSON) → St × Option PipelineError
  | st, [] => (st, none)
  | st, (file, sub) :: rest =>
    match place_file st build_dir file target_base sub with
    | (st', none) => placeFiles build_dir target_base st' rest
    | (st', some e) => (st', some e)

/-- The category loop of main (install.py lines 103-115): for each
(kind, files) item in order, abort on an unknown kind, abort on a files
value that is not a dict, otherwise place that category's files — note the
placement happens inside this loop, before later categories are checked. -/
def processCategories (stepDir : FsPath) :
    St → List (String × JSON) → St × Option PipelineError
  | st, [] => (st, none)
  | st, (kind, files) :: rest =>
    match BASES.find? (fun b => b.1 = kind) with
    | none => (st, some (.schemaErrorUnknownCategory kind))
    | some base =>
      match files with
      | .obj entries =>
        match placeFiles stepDir base.2 st entries with
        | (st', none) => processCategories stepDir st' rest
        | (st', some e) => (st', some e)
      | _ => (st, some (.schemaErrorInvalidFileMap stepDir))

/-- One iteration of the step loop of main (install.py lines 96-115): run
the script, require its JSON to be an object, then walk its categories. -/
def processStep (st : St) (s : Step) : St × Option PipelineError :=
  let st := { st with events := st.events ++ [.ranStep s.dir] }
  match run_build s with
  | .error e => (st, some e)
  | .ok (.obj cats) => processCategories s.dir st cats
  | .ok _ => (st, some (.schemaErrorNotObject s.dir))

/-- The step loop of main: process the discovered scripts in order, stopping
at the first abort. -/
def runSteps : St → List Step → St × Option PipelineError
  | st, [] => (st, none)
  | st, s :: rest =>
    match processStep st s with
    | (st', none) => runSteps st' rest
    | (st', some e) => (st', some e)

/-- main (install.py lines 86-138): abort with the no-build-scripts
diagnostic if discovery found nothing; otherwise run every step, and only
after all of them succeed invoke xorriso and limine (modelled by their
events). -/
def main (st : St) (scripts : List Step) : St × Option PipelineError :=
  if scripts.isEmpty then (st, some .discoveryError)
  else
    match runSteps st scripts with
    | (st', none) =>
      ({ st' with events := st'.events ++ [.assembledImage, .installedBootloader] }, none)
    | (st', some e) => (st', some e)

/-- The placement events of a trace. -/
def placedEvents (evs : List Event) : List Event :=
  evs.filter (fun e => match e with | .placedFile _ _ => true | _ => false)

/-! ### Helper lemmas about the embedding -/

theorem lookup_insert_self (fs : FS) (p q : FsPath) (e : Entry)
    (h : normalize q = normalize p) : (fs.insert p e).lookup q = some e := by
  simp [FS.lookup, FS.insert, List.find?, h]

theorem lookup_insert_other (fs : FS) (p q : FsPath) (e : Entry)
    (h : normalize q ≠ normalize p) : (fs.insert p e).lookup q = fs.lookup q := by
  simp [FS.lookup, FS.insert, List.find?, Ne.symm h]

/-- A category name passing the `kind in BASES` test has a binding in BASES. -/
theorem categoryKnown_find (k : String) (h : categoryKnown k = true) :
    ∃ b, BASES.find? (fun b => b.1 = k) = some b := by
  refine Option.isSome_iff_exists.mp ?_
  rw [List.find?_isSome]
  rw [categoryKnown, List.any_eq_true] at h
  exact h

/-- A category name failing the `kind in BASES` test has no binding in BASES. -/
theorem categoryUnknown_find (k : String) (h : categoryKnown k = false) :
    BASES.find? (fun b => b.1 = k) = none := by
  cases hf : BASES.find? (fun b => b.1 = k) with
  | none => rfl
  | some b =>
    have hmem := List.mem_of_find?_eq_some hf
    have hp := List.find?_some hf
    have hk : categoryKnown k = true := by
      rw [categoryKnown, List.any_eq_true]
      exact ⟨b, hmem, hp⟩
    rw [h] at hk
    exact Bool.noConfusion hk

/-- Evaluation of place_file when the source is a regular file, the manifest
value is a string, and source and destination resolve to distinct files:
the destination is written with the source's content and mode and the
current clock as mtime, and a placement event is logged. -/
theorem place_file_success (st : St) (bd : FsPath) (f : String) (base : FsPath)
    (sub : String) (d : FileData)
    (hsrc : st.fs.lookup (joinPath bd f) = some (.file d))
    (hne : normalize (base ++ splitSegs sub ++ [lastSegment (joinPath bd f)]) ≠
      normalize (joinPath bd f)) :
    place_file st bd f base (.str sub) =
      ({ fs := st.fs.insert (base ++ splitSegs sub ++ [lastSegment (joinPath bd f)])
            (.file ⟨d.content, d.mode, st.now⟩),
         events := st.events ++
            [.placedFile (joinPath bd f)
              (base ++ splitSegs sub ++ [lastSegment (joinPath bd f)])],
         now := st.now }, none) := by
  have hne' : ¬ normalize (base ++ (splitSegs sub ++ [lastSegment (joinPath bd f)])) =
      normalize (joinPath bd f) := by
    rw [← List.append_assoc]
    exact hne
  simp [place_file, hsrc, hne']

/-- Every error raised from inside place_file is a missing-source abort or an
unhandled exception, never a schema abort. -/
theorem place_file_error_class (st : St) (bd : FsPath) (f : String) (base : FsPath)
    (sub : JSON) (e : PipelineError)
    (h : (place_file st bd f base sub).2 = some e) : e.isSchemaError = false := by
  unfold place_file at h
  dsimp only at h
  rcases hl : st.fs.lookup (joinPath bd f) with _ | entry <;> rw [hl] at h <;>
    dsimp only at h
  · simp only [Option.some.injEq] at h
    subst h; rfl
  · rcases sub with s | n | b | _ | l | flds <;> dsimp only at h <;>
      try (simp only [Option.some.injEq] at h; subst h; rfl)
    rcases entry with d | _ <;> dsimp only at h
    · split at h
      · simp only [Option.some.injEq] at h
        subst h; rfl
      · exact absurd h (by simp)
    · simp only [Option.some.injEq] at h
      subst h; rfl

/-- Errors raised from the file loop are never schema aborts. -/
theorem placeFiles_error_class (bd base : FsPath) :
    ∀ (entries : List (String × JSON)) (st : St) (e : PipelineError),
      (placeFiles bd base st entries).2 = some e → e.isSchemaError = false := by
  intro entries
  induction entries with
  | nil =>
    intro st e h
    simp [placeFiles] at h
  | cons kv rest ih =>
    intro st e h
    obtain ⟨file, sub⟩ := kv
    unfold placeFiles at h
    rcases hp : place_file st bd file base sub with ⟨st', err⟩
    rw [hp] at h
    cases err with
    | none => exact ih st' e h
    | some e0 =>
      simp only [Option.some.injEq] at h
      subst h
      exact place_file_error_class st bd file base sub e0 (by rw [hp])

/-- With every category known and every category value an object, the
category loop never raises a schema abort. -/
theorem processCategories_error_class (stepDir : FsPath) :
    ∀ (cats : List (String × JSON)) (st : St) (e : PipelineError),
      (cats.all fun kv => categoryKnown kv.1 && kv.2.isObj) = true →
      (processCategories stepDir st cats).2 = some e → e.isSchemaError = false := by
  intro cats
  induction cats with
  | nil =>
    intro st e hall h
    simp [processCategories] at h
  | cons kv rest ih =>
    intro st e hall h
    obtain ⟨kind, files⟩ := kv
    rw [List.all_cons, Bool.and_eq_true, Bool.and_eq_true] at hall
    obtain ⟨⟨hkind, hobj⟩, hrest⟩ := hall
    obtain ⟨b, hb⟩ := categoryKnown_find kind hkind
    unfold processCategories at h
    rw [hb] at h
    cases files with
    | obj entries =>
      dsimp only at h
      rcases hp : placeFiles stepDir b.2 st entries with ⟨st', err⟩
      rw [hp] at h
      cases err with
      | none => exact ih st' e hrest h
      | some e0 =>
        simp only [Option.some.injEq] at h
        subst h
        exact placeFiles_error_class stepDir b.2 entries st e0 (by rw [hp])
    | str s => exact absurd hobj (by simp [JSON.isObj])
    | num n => exact absurd hobj (by simp [JSON.isObj])
    | bool bb => exact absurd hobj (by simp [JSON.isObj])
    | null => exact absurd hobj (by simp [JSON.isObj])
    | arr l => exact absurd hobj (by simp [JSON.isObj])

/-- place_file adds at most a placement event to the trace. -/
theorem place_file_no_image (st : St) (bd : FsPath) (f : String) (base : FsPath)
    (sub : JSON) (h : Event.assembledImage ∉ st.events) :
    Event.assembledImage ∉ (place_file st bd f base sub).1.events := by
  unfold place_file
  dsimp only
  rcases st.fs.lookup (joinPath bd f) with _ | entry <;> dsimp only
  · exact h
  · rcases sub with s | n | b | _ | l | flds <;> dsimp only <;> try exact h
    rcases entry with d | _ <;> dsimp only
    · split
      · exact h
      · simp [h]
    · exact h

/-- The file loop adds at most placement events to the trace. -/
theorem placeFiles_no_image (bd base : FsPath) :
    ∀ (entries : List (String × JSON)) (st : St),
      Event.assembledImage ∉ st.events →
      Event.assembledImage ∉ (placeFiles bd base st entries).1.events := by
  intro entries
  induction entries with
  | nil => intro st h; exact h
  | cons kv rest ih =>
    intro st h
    obtain ⟨file, sub⟩ := kv
    unfold placeFiles
    rcases hp : place_file st bd file base sub with ⟨st', err⟩
    have hst' : Event.assembledImage ∉ st'.events := by
      have := place_file_no_image st bd file base sub h
      rw [hp] at this
      exact this
    cases err with
    | none => exact ih st' hst'
    | some e0 => exact hst'

/-- The category loop adds at most placement events to the trace. -/
theorem processCategories_no_image (stepDir : FsPath) :
    ∀ (cats : List (String × JSON)) (st : St),
      Event.assembledImage ∉ st.events →
      Event.assembledImage ∉ (processCategories stepDir st cats).1.events := by
  intro cats
  induction cats with
  | nil => intro st h; exact h
  | cons kv rest ih =>
    intro st h
    obtain ⟨kind, files⟩ := kv
    unfold processCategories
    rcases hf : BASES.find? (fun b => b.1 = kind) with _ | b <;> rw [hf]
    · exact h
    · cases files with
      | obj entries =>
        rcases hp : placeFiles stepDir b.2 st entries with ⟨st', err⟩
        have hst' : Event.assembledImage ∉ st'.events := by
          have h2 := placeFiles_no_image stepDir b.2 entries st h
          rw [hp] at h2
          exact h2
        show Event.assembledImage ∉
          (match placeFiles stepDir b.2 st entries with
            | (st', none) => processCategories stepDir st' rest
            | (st', some e) => (st', some e)).1.events
        rw [hp]
        cases err with
        | none => exact ih st' hst'
        | some e0 => exact hst'
      | str s => exact h
      | num n => exact h
      | bool bb => exact h
      | null => exact h
      | arr l => exact h

/-- Processing one step adds only step-launch and placement events, never the
image event. -/
theorem processStep_no_image (st : St) (s : Step)
    (h : Event.assembledImage ∉ st.events) :
    Event.assembledImage ∉ (processStep st s).1.events := by
  have h1 : Event.assembledImage ∉ st.events ++ [Event.ranStep s.dir] := by
    simp [h]
  unfold processStep
  dsimp only
  rcases hr : run_build s with e | v
  · exact h1
  · cases v with
    | obj cats => exact processCategories_no_image s.dir cats _ h1
    | str s2 => exact h1
    | num n => exact h1
    | bool bb => exact h1
    | null => exact h1
    | arr l => exact h1

/-- The step loop adds only step-launch and placement events. -/
theorem runSteps_no_image :
    ∀ (steps : List Step) (st : St),
      Event.assembledImage ∉ st.events →
      Event.assembledImage ∉ (runSteps st steps).1.events := by
  intro steps
  induction steps with
  | nil => intro st h; exact h
  | cons s rest ih =>
    intro st h
    unfold runSteps
    rcases hp : processStep st s with ⟨st', err⟩
    have hst' : Event.assembledImage ∉ st'.events := by
      have := processStep_no_image st s h
      rw [hp] at this
      exact this
    cases err with
    | none => exact ih st' hst'
    | some e0 => exact hst'

/-- The step loop over an appended list runs the first part first and
continues with the second only if no abort occurred. -/
theorem runSteps_append (l1 : List Step) :
    ∀ (st : St) (l2 : List Step),
      runSteps st (l1 ++ l2) =
        match runSteps st l1 with
        | (st', none) => runSteps st' l2
        | (st', some e) => (st', some e) := by
  induction l1 with
  | nil => intro st l2; rfl
  | cons s rest ih =>
    intro st l2
    have hL : runSteps st ((s :: rest) ++ l2) =
        match processStep st s with
        | (st2, none) => runSteps st2 (rest ++ l2)
        | (st2, some e) => (st2, some e) := rfl
    have hR : runSteps st (s :: rest) =
        match processStep st s with
        | (st2, none) => runSteps st2 rest
        | (st2, some e) => (st2, some e) := rfl
    rw [hL, hR]
    rcases hp : processStep st s with ⟨st', err⟩
    cases err with
    | none => exact ih st' l2
    | some e0 => rfl

/-- The last component of a join is the appended segment. -/
theorem lastSegment_append (p : FsPath) (s : String) : lastSegment (p ++ [s]) = s := by
  simp [lastSegment, List.getLastD_concat]

/-- Evaluation of a whole step whose manifest has one category with one
file entry and whose placement succeeds: the step is launched, the file is
copied to category_root / subpath / basename(file), and no abort occurs. -/
theorem processStep_single (st : St) (wd : FsPath) (kind : String) (base : FsPath)
    (f sub : String) (d : FileData)
    (hb : BASES.find? (fun b => b.1 = kind) = some (kind, base))
    (hsrc : FS.lookup st.fs (joinPath wd f) = some (.file d))
    (hne : normalize (base ++ splitSegs sub ++ [lastSegment (joinPath wd f)]) ≠
      normalize (joinPath wd f)) :
    processStep st ⟨wd, .emits (.obj [(kind, .obj [(f, .str sub)])])⟩ =
      ({ fs := st.fs.insert (base ++ splitSegs sub ++ [lastSegment (joinPath wd f)])
            (.file ⟨d.content, d.mode, st.now⟩),
         events := st.events ++ [.ranStep wd,
           .placedFile (joinPath wd f)
             (base ++ splitSegs sub ++ [lastSegment (joinPath wd f)])],
         now := st.now }, none) := by
  have hsrc1 : FS.lookup ({ st with events := st.events ++ [Event.ranStep wd] } : St).fs
      (joinPath wd f) = some (.file d) := hsrc
  have hx := place_file_success { st with events := st.events ++ [Event.ranStep wd] }
      wd f base sub d hsrc1 hne
  show processCategories wd { st with events := st.events ++ [Event.ranStep wd] }
      [(kind, .obj [(f, .str sub)])] = _
  unfold processCategories
  rw [hb]
  dsimp only
  unfold placeFiles
  rw [hx]
  simp [placeFiles, processCategories]

/-! ### Claim theorems -/

/-- C1 (corrected): in a manifest entry the KEYS of the inner mapping are
the source file names and the VALUES are the destination subpaths — the
opposite orientation to the claim (the repository's own prebuilt/build.py
emits entries like "bin/limine-bios.sys": "limine/").  Placing the entry
with that orientation, {"boot": {"limine-bios.sys": "limine/"}}, from a
step whose working directory contains limine-bios.sys results in a file at
<boot-root>/limine/limine-bios.sys byte-identical to the source. -/
theorem spec_c1_roundtrip (st : St) (wd : FsPath) (d : FileData)
    (hsrc : FS.lookup st.fs (wd ++ ["limine-bios.sys"]) = some (.file d))
    (hne : normalize (wd ++ ["limine-bios.sys"]) ≠
      ["cache", "iso_root", "boot", "limine", "limine-bios.sys"]) :
    (processStep st ⟨wd, .emits
        (.obj [("boot", .obj [("limine-bios.sys", .str "limine/")])])⟩).2 = none ∧
    FS.lookup (processStep st ⟨wd, .emits
        (.obj [("boot", .obj [("limine-bios.sys", .str "limine/")])])⟩).1.fs
        (BOOT ++ ["limine", "limine-bios.sys"]) =
      some (.file ⟨d.content, d.mode, st.now⟩) := by
  have hsrc' : FS.lookup st.fs (joinPath wd "limine-bios.sys") = some (.file d) := hsrc
  have hdst : BOOT ++ splitSegs "limine/" ++ [lastSegment (joinPath wd "limine-bios.sys")] =
      ["cache", "iso_root", "boot", "limine", "limine-bios.sys"] := by
    show BOOT ++ splitSegs "limine/" ++ [lastSegment (wd ++ ["limine-bios.sys"])] = _
    rw [lastSegment_append]
    rfl
  have hne' : normalize (BOOT ++ splitSegs "limine/" ++
      [lastSegment (joinPath wd "limine-bios.sys")]) ≠
      normalize (joinPath wd "limine-bios.sys") := by
    rw [hdst]
    exact fun h => hne h.symm
  have hres := processStep_single st wd "boot" BOOT "limine-bios.sys" "limine/" d rfl
    hsrc' hne'
  rw [hres]
  refine ⟨rfl, ?_⟩
  dsimp only
  rw [hdst]
  exact lookup_insert_self _ _ _ _ rfl

/-- C1 witness: the corrected round trip at a concrete working directory and
file. -/
theorem spec_c1_witness :
    (processStep ⟨[(["wd", "limine-bios.sys"], .file ⟨[7, 7, 7], 420, 5⟩)], [], 9⟩
        ⟨["wd"], .emits
          (.obj [("boot", .obj [("limine-bios.sys", .str "limine/")])])⟩).2 = none ∧
    FS.lookup (processStep ⟨[(["wd", "limine-bios.sys"], .file ⟨[7, 7, 7], 420, 5⟩)], [], 9⟩
        ⟨["wd"], .emits
          (.obj [("boot", .obj [("limine-bios.sys", .str "limine/")])])⟩).1.fs
        (BOOT ++ ["limine", "limine-bios.sys"]) =
      some (.file ⟨[7, 7, 7], 420, 9⟩) :=
  spec_c1_roundtrip ⟨[(["wd", "limine-bios.sys"], .file ⟨[7, 7, 7], 420, 5⟩)], [], 9⟩
    ["wd"] ⟨[7, 7, 7], 420, 5⟩ (by decide) (by decide)

/-- C1 counterexample: the entry exactly as the claim writes it,
{"boot": {"limine/": "limine-bios.sys"}}, from a working directory that
contains limine-bios.sys, does NOT produce <boot-root>/limine/limine-bios.sys;
the code reads the key "limine/" as the source file name, finds no such
file, and aborts with PlacementError. -/
theorem spec_c1_counterexample :
    (processStep ⟨[(["wd", "limine-bios.sys"], .file ⟨[7], 420, 5⟩)], [], 9⟩
        ⟨["wd"], .emits
          (.obj [("boot", .obj [("limine/", .str "limine-bios.sys")])])⟩).2 =
      some (.placementError ["wd", "limine"]) ∧
    FS.lookup (processStep ⟨[(["wd", "limine-bios.sys"], .file ⟨[7], 420, 5⟩)], [], 9⟩
        ⟨["wd"], .emits
          (.obj [("boot", .obj [("limine/", .str "limine-bios.sys")])])⟩).1.fs
        (BOOT ++ ["limine", "limine-bios.sys"]) = none := by
  decide

/-- C9: if discovery finds zero build scripts, main aborts with the
DiscoveryError diagnostic and a nonzero exit before running any step (the
state, and hence the event trace, is unchanged: no step was launched, no
file placed, and the image assembler event never happens); an empty
discovery result is never treated as a valid empty image. -/
theorem spec_c9_empty_discovery (st : St) :
    main st [] = (st, some .discoveryError) := by
  rfl

/-- C7 (corrected): a step whose child process exits nonzero aborts with the
ExecutionError diagnostic naming the step, but a failure to launch the
process is not caught by run_build's handler (which catches only
CalledProcessError) and escapes as an unhandled exception — the run still
dies with a nonzero status, but without an ExecutionError naming the
step. -/
theorem spec_c7_step_runner_errors (st : St) (dir : FsPath) :
    (processStep st ⟨dir, .nonzeroExit⟩).2 = some (.executionError dir) ∧
    (processStep st ⟨dir, .launchFailure⟩).2 =
      some (.uncaughtException "FileNotFoundError") := by
  exact ⟨rfl, rfl⟩

/-- C7 counterexample: a step whose process fails to launch ends the run
with an unhandled FileNotFoundError, not with the ExecutionError the claim
promises for a failure to launch. -/
theorem spec_c7_counterexample :
    (processStep ⟨[], [], 0⟩ ⟨["mod"], .launchFailure⟩).2 =
      some (.uncaughtException "FileNotFoundError") ∧
    (processStep ⟨[], [], 0⟩ ⟨["mod"], .launchFailure⟩).2 ≠
      some (.executionError ["mod"]) := by
  decide

/-- C3 (corrected): schema checking is interleaved with placement, category
by category — an unrecognized category aborts with the SchemaError
diagnostic when the loop reaches it, so no placement precedes the abort
only when the unrecognized category comes first in the manifest.  This
theorem proves the first-category case: the step aborts with only its
launch logged, the filesystem untouched. -/
theorem spec_c3_unknown_category (st : St) (stepDir : FsPath) (k : String) (v : JSON)
    (rest : List (String × JSON)) (hk : categoryKnown k = false) :
    processStep st ⟨stepDir, .emits (.obj ((k, v) :: rest))⟩ =
      ({ st with events := st.events ++ [.ranStep stepDir] },
        some (.schemaErrorUnknownCategory k)) := by
  unfold processStep run_build
  dsimp only
  unfold processCategories
  rw [categoryUnknown_find k hk]

/-- C3 witness: a manifest whose first category is "unknown" aborts with
SchemaError and places nothing. -/
theorem spec_c3_witness :
    processStep ⟨[], [], 0⟩
        ⟨["wd"], .emits (.obj [("unknown", .obj [("x", .str "y")])])⟩ =
      (⟨[], [Event.ranStep ["wd"]], 0⟩,
        some (.schemaErrorUnknownCategory "unknown")) :=
  spec_c3_unknown_category ⟨[], [], 0⟩ ["wd"] "unknown" (.obj [("x", .str "y")]) []
    (by decide)

/-- C3 counterexample: a step emitting a manifest with a valid "generic"
category followed by an "unknown" category aborts with SchemaError, but
only after the generic category's file has already been placed — placement
for the step does occur before the validation failure, contradicting the
claim that the whole manifest is validated before any file of the step is
placed. -/
theorem spec_c3_counterexample :
    (processStep ⟨[(["wd", "a"], .file ⟨[9], 420, 3⟩)], [], 7⟩
        ⟨["wd"], .emits (.obj [("generic", .obj [("a", .str "x/")]),
          ("unknown", .obj [("x", .str "y")])])⟩).2
      = some (.schemaErrorUnknownCategory "unknown") ∧
    FS.lookup (processStep ⟨[(["wd", "a"], .file ⟨[9], 420, 3⟩)], [], 7⟩
        ⟨["wd"], .emits (.obj [("generic", .obj [("a", .str "x/")]),
          ("unknown", .obj [("x", .str "y")])])⟩).1.fs
        (ROOT ++ ["x", "a"]) = some (.file ⟨[9], 420, 7⟩) := by
  decide

/-- C4 (corrected): an entry whose resolved source does not exist aborts
with the PlacementError diagnostic and leaves the state — in particular,
every file already placed by the same or earlier steps — exactly as it was;
but a source that exists and is not a regular file (a directory) passes the
exists() check and instead dies in shutil.copy with an unhandled
IsADirectoryError, not with PlacementError. -/
theorem spec_c4_missing_source (st : St) (bd : FsPath) (f : String) (base : FsPath)
    (sub : JSON) :
    (FS.lookup st.fs (joinPath bd f) = none →
      place_file st bd f base sub = (st, some (.placementError (joinPath bd f)))) ∧
    (∀ s, sub = .str s → FS.lookup st.fs (joinPath bd f) = some .dir →
      place_file st bd f base sub =
        (st, some (.uncaughtException "IsADirectoryError"))) := by
  constructor
  · intro h
    unfold place_file
    dsimp only
    rw [h]
  · intro s hs h
    subst hs
    unfold place_file
    dsimp only
    rw [h]

/-- C4 witness: a missing source aborts with PlacementError leaving the
state unchanged; a directory source dies with IsADirectoryError. -/
theorem spec_c4_witness :
    place_file ⟨[], [], 0⟩ ["wd"] "f" ROOT (.str "s") =
      (⟨[], [], 0⟩, some (.placementError ["wd", "f"])) ∧
    place_file ⟨[(["wd", "d"], .dir)], [], 0⟩ ["wd"] "d" ROOT (.str "s") =
      (⟨[(["wd", "d"], .dir)], [], 0⟩, some (.uncaughtException "IsADirectoryError")) :=
  ⟨(spec_c4_missing_source ⟨[], [], 0⟩ ["wd"] "f" ROOT (.str "s")).1 (by decide),
   (spec_c4_missing_source ⟨[(["wd", "d"], .dir)], [], 0⟩ ["wd"] "d" ROOT
      (.str "s")).2 "s" rfl (by decide)⟩

/-- C4 counterexample: a declared source that exists but is a directory is
not rejected with PlacementError as the claim states; the copy dies with an
unhandled IsADirectoryError. -/
theorem spec_c4_counterexample :
    (place_file ⟨[(["wd", "d"], .dir)], [], 0⟩ ["wd"] "d" ROOT (.str "x/")).2 =
      some (.uncaughtException "IsADirectoryError") ∧
    (place_file ⟨[(["wd", "d"], .dir)], [], 0⟩ ["wd"] "d" ROOT (.str "x/")).2 ≠
      some (.placementError ["wd", "d"]) := by
  decide

/-- C6 (corrected): a successful placement is a copy, not a move — the
source file is left intact — and it preserves the permission bits, but NOT
the modification time: shutil.copy (unlike copy2) copies data and mode
only, so the destination's mtime is the time of copying, not the
source's. -/
theorem spec_c6_copy_semantics (st : St) (bd : FsPath) (f sub : String) (base : FsPath)
    (d : FileData)
    (hsrc : FS.lookup st.fs (joinPath bd f) = some (.file d))
    (hne : normalize (base ++ splitSegs sub ++ [lastSegment (joinPath bd f)]) ≠
      normalize (joinPath bd f)) :
    (place_file st bd f base (.str sub)).2 = none ∧
    FS.lookup (place_file st bd f base (.str sub)).1.fs (joinPath bd f) =
      some (.file d) ∧
    FS.lookup (place_file st bd f base (.str sub)).1.fs
        (base ++ splitSegs sub ++ [lastSegment (joinPath bd f)]) =
      some (.file ⟨d.content, d.mode, st.now⟩) := by
  have hx := place_file_success st bd f base sub d hsrc hne
  rw [hx]
  refine ⟨rfl, ?_, ?_⟩
  · dsimp only
    rw [lookup_insert_other _ _ _ _ (fun h => hne h.symm)]
    exact hsrc
  · exact lookup_insert_self _ _ _ _ rfl

/-- C6 witness: at a concrete source with mtime 5 copied at clock 10, the
copy succeeds, the source stays intact, and the destination carries the
source's bytes and mode with mtime 10. -/
theorem spec_c6_witness :
    (place_file ⟨[(["wd", "f"], .file ⟨[1, 2], 493, 5⟩)], [], 10⟩
        ["wd"] "f" ROOT (.str "sub")).2 = none ∧
    FS.lookup (place_file ⟨[(["wd", "f"], .file ⟨[1, 2], 493, 5⟩)], [], 10⟩
        ["wd"] "f" ROOT (.str "sub")).1.fs ["wd", "f"] =
      some (.file ⟨[1, 2], 493, 5⟩) ∧
    FS.lookup (place_file ⟨[(["wd", "f"], .file ⟨[1, 2], 493, 5⟩)], [], 10⟩
        ["wd"] "f" ROOT (.str "sub")).1.fs
        (ROOT ++ splitSegs "sub" ++ [lastSegment (joinPath ["wd"] "f")]) =
      some (.file ⟨[1, 2], 493, 10⟩) :=
  spec_c6_copy_semantics ⟨[(["wd", "f"], .file ⟨[1, 2], 493, 5⟩)], [], 10⟩
    ["wd"] "f" "sub" ROOT ⟨[1, 2], 493, 5⟩ (by decide) (by decide)

/-- C6 counterexample: the destination of a concrete placement has the
clock's time 10 as its modification time, not the source's time 5 — the
claim that placement preserves the modification time is false (the copy
and permission-preservation parts hold; only the mtime part fails). -/
theorem spec_c6_counterexample :
    FS.lookup (place_file ⟨[(["wd", "f"], .file ⟨[1, 2], 493, 5⟩)], [], 10⟩
        ["wd"] "f" ROOT (.str "sub")).1.fs (ROOT ++ ["sub", "f"]) =
      some (.file ⟨[1, 2], 493, 10⟩) ∧
    FS.lookup (place_file ⟨[(["wd", "f"], .file ⟨[1, 2], 493, 5⟩)], [], 10⟩
        ["wd"] "f" ROOT (.str "sub")).1.fs (ROOT ++ ["sub", "f"]) ≠
      some (.file ⟨[1, 2], 493, 5⟩) := by
  decide

/-- C10: the destination is the raw path join
category_root / destination_subpath / source_basename with no
normalization and no containment check, so a destination subpath made of
".." segments places the file, without any error, at the OS-resolved
location outside the category root — here "../../../escape" under the
"boot" category root cache/iso_root/boot resolves to escape/payload,
outside the whole staging tree cache/iso_root. -/
theorem spec_c10_path_escape (st : St) (wd : FsPath) (d : FileData)
    (hsrc : FS.lookup st.fs (wd ++ ["payload"]) = some (.file d))
    (hne : normalize (wd ++ ["payload"]) ≠ ["escape", "payload"]) :
    (processStep st ⟨wd, .emits
        (.obj [("boot", .obj [("payload", .str "../../../escape")])])⟩).2 = none ∧
    FS.lookup (processStep st ⟨wd, .emits
        (.obj [("boot", .obj [("payload", .str "../../../escape")])])⟩).1.fs
        ["escape", "payload"] =
      some (.file ⟨d.content, d.mode, st.now⟩) := by
  have hsrc' : FS.lookup st.fs (joinPath wd "payload") = some (.file d) := hsrc
  have hdst : BOOT ++ splitSegs "../../../escape" ++ [lastSegment (joinPath wd "payload")] =
      ["cache", "iso_root", "boot", "..", "..", "..", "escape", "payload"] := by
    show BOOT ++ splitSegs "../../../escape" ++ [lastSegment (wd ++ ["payload"])] = _
    rw [lastSegment_append]
    rfl
  have hnorm : normalize (BOOT ++ splitSegs "../../../escape" ++
      [lastSegment (joinPath wd "payload")]) = ["escape", "payload"] := by
    rw [hdst]
    rfl
  have hne' : normalize (BOOT ++ splitSegs "../../../escape" ++
      [lastSegment (joinPath wd "payload")]) ≠
      normalize (joinPath wd "payload") := by
    rw [hnorm]
    exact fun h => hne h.symm
  have hres := processStep_single st wd "boot" BOOT "payload" "../../../escape" d rfl
    hsrc' hne'
  rw [hres]
  refine ⟨rfl, ?_⟩
  dsimp only
  exact lookup_insert_self _ _ _ _ (by rw [hnorm]; rfl)

/-- C10 witness: the escape at a concrete working directory; the placed
file lands at escape/payload, which is not under the boot category root
cache/iso_root/boot nor under the staging tree cache/iso_root. -/
theorem spec_c10_witness :
    (processStep ⟨[(["wd", "payload"], .file ⟨[3], 448, 1⟩)], [], 2⟩
        ⟨["wd"], .emits
          (.obj [("boot", .obj [("payload", .str "../../../escape")])])⟩).2 = none ∧
    FS.lookup (processStep ⟨[(["wd", "payload"], .file ⟨[3], 448, 1⟩)], [], 2⟩
        ⟨["wd"], .emits
          (.obj [("boot", .obj [("payload", .str "../../../escape")])])⟩).1.fs
        ["escape", "payload"] =
      some (.file ⟨[3], 448, 2⟩) :=
  spec_c10_path_escape ⟨[(["wd", "payload"], .file ⟨[3], 448, 1⟩)], [], 2⟩
    ["wd"] ⟨[3], 448, 1⟩ (by decide) (by decide)

/-- C8: two entries from different steps resolving to the same destination
path with different contents produce one deterministic winner — the entry
applied last in the sequential pass: with both steps declaring
{"generic": {"README": ""}}, the staged cache/iso_root/README ends with
the second step's bytes and mode.  The run is a pure function of the
discovered step list, so there is no race. -/
theorem spec_c8_last_write_wins (st : St) (wd1 wd2 : FsPath) (d1 d2 : FileData)
    (h1 : FS.lookup st.fs (wd1 ++ ["README"]) = some (.file d1))
    (h2 : FS.lookup st.fs (wd2 ++ ["README"]) = some (.file d2))
    (hne1 : normalize (wd1 ++ ["README"]) ≠ ["cache", "iso_root", "README"])
    (hne2 : normalize (wd2 ++ ["README"]) ≠ ["cache", "iso_root", "README"]) :
    (runSteps st
        [⟨wd1, .emits (.obj [("generic", .obj [("README", .str "")])])⟩,
         ⟨wd2, .emits (.obj [("generic", .obj [("README", .str "")])])⟩]).2 = none ∧
    FS.lookup (runSteps st
        [⟨wd1, .emits (.obj [("generic", .obj [("README", .str "")])])⟩,
         ⟨wd2, .emits (.obj [("generic", .obj [("README", .str "")])])⟩]).1.fs
        (ROOT ++ ["README"]) =
      some (.file ⟨d2.content, d2.mode, st.now⟩) := by
  have hdst1 : ROOT ++ splitSegs "" ++ [lastSegment (joinPath wd1 "README")] =
      ["cache", "iso_root", "README"] := by
    show ROOT ++ splitSegs "" ++ [lastSegment (wd1 ++ ["README"])] = _
    rw [lastSegment_append]
    rfl
  have hdst2 : ROOT ++ splitSegs "" ++ [lastSegment (joinPath wd2 "README")] =
      ["cache", "iso_root", "README"] := by
    show ROOT ++ splitSegs "" ++ [lastSegment (wd2 ++ ["README"])] = _
    rw [lastSegment_append]
    rfl
  have h1' : FS.lookup st.fs (joinPath wd1 "README") = some (.file d1) := h1
  have hne1' : normalize (ROOT ++ splitSegs "" ++ [lastSegment (joinPath wd1 "README")]) ≠
      normalize (joinPath wd1 "README") := by
    rw [hdst1]
    exact fun h => hne1 h.symm
  have hA := processStep_single st wd1 "generic" ROOT "README" "" d1 rfl h1' hne1'
  have h2' : FS.lookup
      (st.fs.insert (ROOT ++ splitSegs "" ++ [lastSegment (joinPath wd1 "README")])
        (.file ⟨d1.content, d1.mode, st.now⟩))
      (joinPath wd2 "README") = some (.file d2) := by
    rw [lookup_insert_other]
    · exact h2
    · rw [hdst1]
      exact fun h => hne2 h
  have hne2' : normalize (ROOT ++ splitSegs "" ++ [lastSegment (joinPath wd2 "README")]) ≠
      normalize (joinPath wd2 "README") := by
    rw [hdst2]
    exact fun h => hne2 h.symm
  have hB := processStep_single
      { fs := st.fs.insert (ROOT ++ splitSegs "" ++ [lastSegment (joinPath wd1 "README")])
            (.file ⟨d1.content, d1.mode, st.now⟩),
        events := st.events ++ [.ranStep wd1,
          .placedFile (joinPath wd1 "README")
            (ROOT ++ splitSegs "" ++ [lastSegment (joinPath wd1 "README")])],
        now := st.now }
      wd2 "generic" ROOT "README" "" d2 rfl h2' hne2'
  simp only [runSteps, hA, hB]
  refine ⟨trivial, ?_⟩
  dsimp only
  exact lookup_insert_self _ _ _ _ (by rw [hdst2]; rfl)

/-- C8 witness: the collision at two concrete steps with different file
contents; the staged README carries the second step's bytes. -/
theorem spec_c8_witness :
    (runSteps ⟨[(["a", "README"], .file ⟨[1], 420, 0⟩),
                (["b", "README"], .file ⟨[2], 436, 0⟩)], [], 4⟩
        [⟨["a"], .emits (.obj [("generic", .obj [("README", .str "")])])⟩,
         ⟨["b"], .emits (.obj [("generic", .obj [("README", .str "")])])⟩]).2 = none ∧
    FS.lookup (runSteps ⟨[(["a", "README"], .file ⟨[1], 420, 0⟩),
                (["b", "README"], .file ⟨[2], 436, 0⟩)], [], 4⟩
        [⟨["a"], .emits (.obj [("generic", .obj [("README", .str "")])])⟩,
         ⟨["b"], .emits (.obj [("generic", .obj [("README", .str "")])])⟩]).1.fs
        (ROOT ++ ["README"]) =
      some (.file ⟨[2], 436, 4⟩) :=
  spec_c8_last_write_wins
    ⟨[(["a", "README"], .file ⟨[1], 420, 0⟩), (["b", "README"], .file ⟨[2], 436, 0⟩)], [], 4⟩
    ["a"] ["b"] ⟨[1], 420, 0⟩ ⟨[2], 436, 0⟩ (by decide) (by decide) (by decide) (by decide)

/-- C2 (corrected): for a manifest whose top-level keys are all in the
closed category set, the schema checks of main() require only that each
category's value is a dict — the values inside are never inspected.  A
category value that is not a mapping is rejected with the SchemaError
diagnostic when the loop reaches it (proved here for the first category),
but a mapping whose values are not strings passes every schema check and
the step instead dies later, inside placement, with an unhandled
TypeError. -/
theorem spec_c2_validation (st : St) (stepDir : FsPath) (cats : List (String × JSON))
    (hknown : (cats.all fun kv => categoryKnown kv.1) = true) :
    ((cats.all fun kv => kv.2.isObj) = true →
      ∀ e, (processStep st ⟨stepDir, .emits (.obj cats)⟩).2 = some e →
        e.isSchemaError = false) ∧
    (∀ k v rest, cats = (k, v) :: rest → v.isObj = false →
      (processStep st ⟨stepDir, .emits (.obj cats)⟩).2 =
        some (.schemaErrorInvalidFileMap stepDir)) := by
  constructor
  · intro hobj e he
    have hall : (cats.all fun kv => categoryKnown kv.1 && kv.2.isObj) = true := by
      rw [List.all_eq_true] at hknown hobj ⊢
      intro kv hkv
      rw [Bool.and_eq_true]
      exact ⟨hknown kv hkv, hobj kv hkv⟩
    have he' : (processCategories stepDir
        { st with events := st.events ++ [Event.ranStep stepDir] } cats).2 = some e := he
    exact processCategories_error_class stepDir cats _ e hall he'
  · intro k v rest hc hv
    subst hc
    show (processCategories stepDir
        { st with events := st.events ++ [Event.ranStep stepDir] } ((k, v) :: rest)).2 = _
    rw [List.all_cons, Bool.and_eq_true] at hknown
    obtain ⟨hk, hrest⟩ := hknown
    obtain ⟨b, hb⟩ := categoryKnown_find k hk
    unfold processCategories
    rw [hb]
    cases v with
    | obj entries => exact absurd hv (by simp [JSON.isObj])
    | str s => rfl
    | num n => rfl
    | bool bb => rfl
    | null => rfl
    | arr l => rfl

/-- C2 witness: a manifest whose first (known) category value is the number
1 rather than a mapping is rejected with SchemaError. -/
theorem spec_c2_witness :
    (((([("boot", JSON.num 1)] : List (String × JSON)).all
          fun kv => kv.2.isObj) = true →
      ∀ e, (processStep ⟨[], [], 0⟩
          ⟨["m"], .emits (.obj [("boot", .num 1)])⟩).2 = some e →
        e.isSchemaError = false) ∧
    (∀ k v rest, ([("boot", JSON.num 1)] : List (String × JSON)) = (k, v) :: rest →
      v.isObj = false →
      (processStep ⟨[], [], 0⟩
          ⟨["m"], .emits (.obj [("boot", .num 1)])⟩).2 =
        some (.schemaErrorInvalidFileMap ["m"]))) :=
  spec_c2_validation ⟨[], [], 0⟩ ["m"] [("boot", .num 1)] (by decide)

/-- C2 counterexample: the manifest entry value 5 under a valid category,
with the declared source file present, is NOT rejected with SchemaError as
the claim states — it passes the schema checks and the run dies inside
placement with an unhandled TypeError from the path join. -/
theorem spec_c2_counterexample :
    (processStep ⟨[(["m", "a"], .file ⟨[1], 420, 0⟩)], [], 0⟩
        ⟨["m"], .emits (.obj [("generic", .obj [("a", .num 5)])])⟩).2 =
      some (.uncaughtException "TypeError") ∧
    PipelineError.isSchemaError (.uncaughtException "TypeError") = false := by
  decide

/-- C5: every failure at any step is fatal to the whole pipeline before the
image stage: if the steps before s all succeed and processing s aborts
with error e, then main on the whole discovered list terminates with
exactly s's aborted state and error e — the steps after s are never
reached (the returned state is s's), and the image-assembly event never
occurs, no matter what the earlier steps already placed. -/
theorem spec_c5_fail_fast (st : St) (pre rest : List Step) (s : Step) (e : PipelineError)
    (hpre : (runSteps st pre).2 = none)
    (hfail : (processStep (runSteps st pre).1 s).2 = some e)
    (himg : Event.assembledImage ∉ st.events) :
    main st (pre ++ s :: rest) = processStep (runSteps st pre).1 s ∧
    (main st (pre ++ s :: rest)).2 = some e ∧
    Event.assembledImage ∉ (main st (pre ++ s :: rest)).1.events := by
  have hne0 : (pre ++ s :: rest).isEmpty = false := by
    cases pre <;> rfl
  rcases hp : runSteps st pre with ⟨st1, err1⟩
  rw [hp] at hpre hfail
  dsimp only at hpre hfail
  subst hpre
  rcases hq : processStep st1 s with ⟨st2, err2⟩
  rw [hq] at hfail
  dsimp only at hfail
  subst hfail
  have hrs : runSteps st (pre ++ s :: rest) = (st2, some e) := by
    rw [runSteps_append, hp]
    dsimp only
    have hu : runSteps st1 (s :: rest) =
        match processStep st1 s with
        | (st3, none) => runSteps st3 rest
        | (st3, some e2) => (st3, some e2) := rfl
    rw [hu, hq]
  have hmain : main st (pre ++ s :: rest) = (st2, some e) := by
    unfold main
    rw [hne0, hrs]
    simp
  have himg2 : Event.assembledImage ∉ st2.events := by
    have h1 := runSteps_no_image pre st himg
    rw [hp] at h1
    have h2 := processStep_no_image st1 s h1
    rw [hq] at h2
    exact h2
  refine ⟨?_, ?_, ?_⟩
  · rw [hmain]
  · rw [hmain]
  · rw [hmain]
    exact himg2

/-- C5 witness: one good step, then a step emitting invalid JSON, then a
further step; the pipeline stops at the invalid step with ParseError, the
third step is never run, and no image is assembled. -/
theorem spec_c5_witness :
    main ⟨[(["a", "f"], .file ⟨[1], 420, 0⟩)], [], 3⟩
        ([⟨["a"], .emits (.obj [("generic", .obj [("f", .str "")])])⟩] ++
          ⟨["c"], .invalidOutput⟩ ::
          [⟨["d"], .nonzeroExit⟩]) =
      processStep (runSteps ⟨[(["a", "f"], .file ⟨[1], 420, 0⟩)], [], 3⟩
        [⟨["a"], .emits (.obj [("generic", .obj [("f", .str "")])])⟩]).1
        ⟨["c"], .invalidOutput⟩ ∧
    (main ⟨[(["a", "f"], .file ⟨[1], 420, 0⟩)], [], 3⟩
        ([⟨["a"], .emits (.obj [("generic", .obj [("f", .str "")])])⟩] ++
          ⟨["c"], .invalidOutput⟩ ::
          [⟨["d"], .nonzeroExit⟩])).2 = some (.parseError ["c"]) ∧
    Event.assembledImage ∉ (main ⟨[(["a", "f"], .file ⟨[1], 420, 0⟩)], [], 3⟩
        ([⟨["a"], .emits (.obj [("generic", .obj [("f", .str "")])])⟩] ++
          ⟨["c"], .invalidOutput⟩ ::
          [⟨["d"], .nonzeroExit⟩])).1.events :=
  spec_c5_fail_fast ⟨[(["a", "f"], .file ⟨[1], 420, 0⟩)], [], 3⟩
    [⟨["a"], .emits (.obj [("generic", .obj [("f", .str "")])])⟩]
    [⟨["d"], .nonzeroExit⟩] ⟨["c"], .invalidOutput⟩ (.parseError ["c"])
    (by decide) (by decide) (by decide)

end Install
